import Mathlib

/-!
Verification of the i2cs-yukthi-vlsid-dc26 repository (capture-final.c and
serial_pwm.c) against its natural-language specification.

The embedding below is a shallow model of the two C programs:

* The YUYV-to-RGB converter (capture-final.c, lines 20-54) is modelled as a
  pure function on byte lists.  The C code computes each channel in a double
  expression such as y0 + (1.402 * v) and assigns the result to an int, which
  truncates toward zero.  Every coefficient has at most six decimal digits, so
  the exact value of each expression is an integer fraction over 10^6; we model
  the computation exactly with integer arithmetic over that denominator and
  truncate with Int.tdiv (C truncation toward zero).  For every input this
  development evaluates concretely, the exact value is at distance at least
  0.04 from the nearest integer, far beyond the rounding error of IEEE double
  for these magnitudes, so the model and the C double computation truncate to
  the same integer there.

* The capture main loop (capture-final.c, lines 106-145, after VIDIOC_STREAMON
  succeeds) is modelled as a trace-producing function over an environment that
  supplies the outcome of each external interaction (select readiness, ioctl
  results, bytesused, malloc, jpeg write).

* The serial/PWM program (serial_pwm.c) is modelled the same way: sysfs writes,
  console echoes and command handling become events in a trace.
-/

/-- Model of clamp (capture-final.c line 20-22):
(v < 0) ? 0 : ((v > 255) ? 255 : (uint8_t)v). -/
def clamp (v : ℤ) : ℕ :=
  if v < 0 then 0 else if 255 < v then 255 else v.toNat

/-- Channel R of yuyv_to_rgb: r = y0 + (1.402 * v), computed in double and
assigned to int.  Modelled exactly over the denominator 10^6 with truncation
toward zero. -/
def rgbR (y v : ℤ) : ℤ := Int.tdiv (1000000 * y + 1402000 * v) 1000000

/-- Channel G of yuyv_to_rgb: g = y0 - (0.344136 * u) - (0.714136 * v). -/
def rgbG (y u v : ℤ) : ℤ :=
  Int.tdiv (1000000 * y - 344136 * u - 714136 * v) 1000000

/-- Channel B of yuyv_to_rgb: b = y0 + (1.772 * u). -/
def rgbB (y u : ℤ) : ℤ := Int.tdiv (1000000 * y + 1772000 * u) 1000000

/-- One output RGB triplet of yuyv_to_rgb (capture-final.c lines 38-52):
the three clamped channels for luma y and centered chroma u, v. -/
def rgbPixel (y u v : ℤ) : List ℕ := [clamp (rgbR y v), clamp (rgbG y u v), clamp (rgbB y u)]

/-- Number of iterations of the conversion loop (capture-final.c line 32):
i = 0, 4, 8, ... while i < width*height*2, so ceil(width*height*2 / 4)
iterations. -/
def numGroups (width height : ℕ) : ℕ := (width * height * 2 + 3) / 4

/-- One iteration of the conversion loop: read the group [Y0, U, Y1, V] at
input offset 4*k (out-of-range reads modelled as 0; the C code reads past the
input buffer there), center the chroma by subtracting 128, and emit the
triplet for Y0 followed by the triplet for Y1. -/
def yuyvGroup (yuyv : List ℕ) (k : ℕ) : List ℕ :=
  rgbPixel (yuyv.getD (4 * k) 0 : ℤ)
      ((yuyv.getD (4 * k + 1) 0 : ℤ) - 128) ((yuyv.getD (4 * k + 3) 0 : ℤ) - 128) ++
    rgbPixel (yuyv.getD (4 * k + 2) 0 : ℤ)
      ((yuyv.getD (4 * k + 1) 0 : ℤ) - 128) ((yuyv.getD (4 * k + 3) 0 : ℤ) - 128)

/-- Model of yuyv_to_rgb (capture-final.c lines 26-54): the concatenation of
the 6-byte output groups, in loop order.  The output list is exactly the bytes
the C code writes to rgb, in order of offset. -/
def yuyv_to_rgb (yuyv : List ℕ) (width height : ℕ) : List ℕ :=
  (List.range (numGroups width height)).flatMap (yuyvGroup yuyv)

lemma clamp_le (v : ℤ) : clamp v ≤ 255 := by
  unfold clamp
  split
  · exact Nat.zero_le _
  · split
    · exact le_rfl
    · omega

lemma yuyvGroup_length (yuyv : List ℕ) (k : ℕ) : (yuyvGroup yuyv k).length = 6 := by
  simp [yuyvGroup, rgbPixel]

lemma flatMap_const_length (f : ℕ → List ℕ) (L : ℕ) (hL : ∀ i, (f i).length = L) :
    ∀ l : List ℕ, (l.flatMap f).length = L * l.length := by
  intro l
  induction l with
  | nil => simp
  | cons a t ih =>
    simp [List.flatMap_cons, hL a, ih, Nat.mul_succ]
    omega

lemma yuyv_to_rgb_length (yuyv : List ℕ) (w h : ℕ) :
    (yuyv_to_rgb yuyv w h).length = 6 * numGroups w h := by
  rw [yuyv_to_rgb, flatMap_const_length (yuyvGroup yuyv) 6 (yuyvGroup_length yuyv),
    List.length_range]

lemma flatMap_range'_slice (f : ℕ → List ℕ) (L : ℕ) (hL : ∀ i, (f i).length = L) :
    ∀ n s k : ℕ, k < n →
      (((List.range' s n).flatMap f).drop (L * k)).take L = f (s + k) := by
  intro n
  induction n with
  | zero => intro s k hk; exact absurd hk (Nat.not_lt_zero k)
  | succ n ih =>
    intro s k hk
    rw [List.range'_succ, List.flatMap_cons]
    cases k with
    | zero =>
      rw [Nat.mul_zero, List.drop_zero, Nat.add_zero, ← hL s]
      exact List.take_left _ _
    | succ k =>
      have h1 : L * (k + 1) = (f s).length + L * k := by rw [hL s]; ring
      rw [h1, List.drop_append]
      have h2 := ih (s + 1) k (by omega)
      rw [h2]
      congr 1
      omega

/-- C1: the claim states that for every input of length 2*W*H with W and H
positive, yuyv_to_rgb produces exactly 3*W*H output bytes.  This fails when
W*H is odd: for W = H = 1 the input [0, 0] has length 2*1*1 = 2, but the loop
runs once (i = 0 < 2), reads two bytes beyond the input and writes 6 output
bytes, not 3. -/
theorem yuyv_c1_counterexample :
    ([0, 0] : List ℕ).length = 2 * 1 * 1 ∧
    (yuyv_to_rgb [0, 0] 1 1).length ≠ 3 * 1 * 1 := by decide

/-- C1 (amended): for every input byte sequence and every W, H with W*H even
(in particular whenever the width is even, as in any genuinely packed 4:2:2
image), yuyv_to_rgb produces exactly 3*W*H output bytes, 6 bytes for each
4-byte input group, and the output list is exactly those bytes. -/
theorem yuyv_c1_amended (yuyv : List ℕ) (w h : ℕ) (hwh : w * h % 2 = 0) :
    (yuyv_to_rgb yuyv w h).length = 3 * (w * h) := by
  rw [yuyv_to_rgb_length]
  rw [numGroups]
  omega

/-- Witness for C1 (amended) at W = 2, H = 1 with a concrete 4-byte input. -/
theorem yuyv_c1_amended_witness :
    (yuyv_to_rgb [0, 0, 0, 0] 2 1).length = 3 * (2 * 1) :=
  yuyv_c1_amended [0, 0, 0, 0] 2 1 (by decide)

/-- C2: every output byte of yuyv_to_rgb lies in [0, 255] because every stored
byte is a saturating clamp; at the extreme inputs Y=U=V=255 and Y=U=V=0 the
out-of-range channels are saturated to the nearest boundary, not reduced
modulo 256: the unclamped R value at Y=255, V=255 is 433, stored as
clamp 433 = 255 while wrapping would give 433 mod 256 = 177, and the
unclamped B value at Y=0, U=0 is -226, stored as clamp (-226) = 0 while
wrapping would give (-226) mod 256 = 30. -/
theorem yuyv_c2 :
    (∀ (yuyv : List ℕ) (w h x : ℕ), x ∈ yuyv_to_rgb yuyv w h → x ≤ 255) ∧
    yuyv_to_rgb [255, 255, 255, 255] 2 1 = [255, 120, 255, 255, 120, 255] ∧
    yuyv_to_rgb [0, 0, 0, 0] 2 1 = [0, 135, 0, 0, 135, 0] ∧
    (rgbR 255 127 = 433 ∧ clamp 433 = 255 ∧ (433 : ℤ) % 256 = 177) ∧
    (rgbB 0 (-128) = -226 ∧ clamp (-226) = 0 ∧ ((-226 : ℤ) % 256) = 30) := by
  refine ⟨?_, by decide, by decide, by decide, by decide⟩
  intro yuyv w h x hx
  rw [yuyv_to_rgb, List.mem_flatMap] at hx
  obtain ⟨k, -, hx⟩ := hx
  rw [yuyvGroup, List.mem_append] at hx
  rcases hx with hx | hx <;>
  · simp only [rgbPixel, List.mem_cons, List.not_mem_nil, or_false] at hx
    rcases hx with rfl | rfl | rfl <;> exact clamp_le _

/-- Witness for C2: the universally quantified bound applied to a concrete
input byte of a concrete conversion. -/
theorem yuyv_c2_witness : (255 : ℕ) ≤ 255 :=
  yuyv_c2.1 [255, 255, 255, 255] 2 1 255 (by decide)

/-- C3: yuyv_to_rgb preserves pixel order.  For every input and every group
index k below the loop count, the 6 output bytes starting at offset 6*k are
exactly the triplet computed from luma Y0 = input byte 4*k followed by the
triplet computed from luma Y1 = input byte 4*k+2, both using the shared
chroma bytes at offsets 4*k+1 and 4*k+3 centered by 128; and the output
length is 3 bytes times 2 pixels per processed group, with no reordering. -/
theorem yuyv_c3 (yuyv : List ℕ) (w h k : ℕ) (hk : k < numGroups w h) :
    (((yuyv_to_rgb yuyv w h).drop (6 * k)).take 6 =
      rgbPixel (yuyv.getD (4 * k) 0 : ℤ)
          ((yuyv.getD (4 * k + 1) 0 : ℤ) - 128) ((yuyv.getD (4 * k + 3) 0 : ℤ) - 128) ++
        rgbPixel (yuyv.getD (4 * k + 2) 0 : ℤ)
          ((yuyv.getD (4 * k + 1) 0 : ℤ) - 128) ((yuyv.getD (4 * k + 3) 0 : ℤ) - 128)) ∧
    (yuyv_to_rgb yuyv w h).length = 3 * (2 * numGroups w h) := by
  constructor
  · have h1 := flatMap_range'_slice (yuyvGroup yuyv) 6 (yuyvGroup_length yuyv)
      (numGroups w h) 0 k hk
    rw [← List.range_eq_range'] at h1
    rw [yuyv_to_rgb, h1, Nat.zero_add, yuyvGroup]
  · rw [yuyv_to_rgb_length]; ring

/-- Witness for C3 at a concrete input, W = 2, H = 1, group k = 0. -/
theorem yuyv_c3_witness :
    ((((yuyv_to_rgb [10, 20, 30, 40] 2 1).drop (6 * 0)).take 6 =
      rgbPixel (([10, 20, 30, 40] : List ℕ).getD (4 * 0) 0 : ℤ)
          ((([10, 20, 30, 40] : List ℕ).getD (4 * 0 + 1) 0 : ℤ) - 128)
          ((([10, 20, 30, 40] : List ℕ).getD (4 * 0 + 3) 0 : ℤ) - 128) ++
        rgbPixel (([10, 20, 30, 40] : List ℕ).getD (4 * 0 + 2) 0 : ℤ)
          ((([10, 20, 30, 40] : List ℕ).getD (4 * 0 + 1) 0 : ℤ) - 128)
          ((([10, 20, 30, 40] : List ℕ).getD (4 * 0 + 3) 0 : ℤ) - 128)) ∧
    (yuyv_to_rgb [10, 20, 30, 40] 2 1).length = 3 * (2 * numGroups 2 1)) :=
  yuyv_c3 [10, 20, 30, 40] 2 1 0 (by decide)

/-- Capture resolution width (capture-final.c line 12). -/
def WIDTH : ℕ := 320

/-- Capture resolution height (capture-final.c line 13). -/
def HEIGHT : ℕ := 240

/-- JPEG quality (capture-final.c line 14). -/
def QUALITY : ℕ := 90

/-- Observable interactions of the capture program after VIDIOC_STREAMON
succeeds (capture-final.c lines 106-145): readiness waits (select with a
2-second timeout), VIDIOC_DQBUF and VIDIOC_QBUF calls with the result the
device returned, the yuyv_to_rgb call, the stbi_write_jpg call with its
arguments and result, the printed error and success messages, and the
teardown calls VIDIOC_STREAMOFF and close. -/
inductive CEvent where
  | wait (ok : Bool)
  | dequeue (ok : Bool)
  | requeue (ok : Bool)
  | convert
  | encode (w h comp quality : ℕ) (ok : Bool)
  | msgSuccess
  | msgEncodeError
  | msgEmptyFrame
  | streamOff
  | closeDev
deriving DecidableEq, Repr

/-- Environment supplying the outcome of every external interaction of the
capture main loop: whether the i-th select reports a frame within its
2-second deadline, the results of the i-th DQBUF and QBUF ioctls, the
bytesused value the device reports for the kept frame, and whether malloc
and the JPEG write succeed. -/
structure CaptureEnv where
  waitOk : ℕ → Bool
  dqOk : ℕ → Bool
  qbufOk : ℕ → Bool
  bytesused : ℕ
  mallocOk : Bool
  encodeOk : Bool

/-- Events of one successful warm-up iteration i (capture-final.c lines
109-115): select succeeds, DQBUF is issued (its result is not checked by the
code), and QBUF is issued when i < 9 (again unchecked). -/
def warmGroup (env : CaptureEnv) (i : ℕ) : List CEvent :=
  [CEvent.wait true, CEvent.dequeue (env.dqOk i)] ++
    (if i < 9 then [CEvent.requeue (env.qbufOk i)] else [])

/-- The warm-up loop (capture-final.c lines 108-116) from iteration i with n
iterations remaining: on a failed select the program prints and returns 1
immediately (first component false), otherwise it dequeues, requeues unless
on the last iteration, and continues. -/
def warmIter (env : CaptureEnv) : ℕ → ℕ → Bool × List CEvent
  | _, 0 => (true, [])
  | i, n + 1 =>
    if env.waitOk i then
      ((warmIter env (i + 1) n).1, warmGroup env i ++ (warmIter env (i + 1) n).2)
    else
      (false, [CEvent.wait false])

/-- The trace of an all-successful stretch of warm-up iterations starting at
iteration s, n iterations long. -/
def warmOkTrace (env : CaptureEnv) (s n : ℕ) : List CEvent :=
  (List.range' s n).flatMap (warmGroup env)

/-- Model of the capture program from the warm-up loop to process exit
(capture-final.c lines 106-145): run the 10 warm-up iterations; on a select
timeout return exit code 1 with no further interactions; otherwise, if
bytesused > 0 convert, write the JPEG (printing an error on failure, which
does not change the exit code) else print the empty-frame error; finally
issue STREAMOFF and close and return 0. -/
def captureRun (env : CaptureEnv) : ℕ × List CEvent :=
  if (warmIter env 0 10).1 = false then
    (1, (warmIter env 0 10).2)
  else if 0 < env.bytesused then
    if env.mallocOk = false then
      (1, (warmIter env 0 10).2)
    else
      (0, (warmIter env 0 10).2 ++
        [CEvent.convert, CEvent.encode WIDTH HEIGHT 3 QUALITY env.encodeOk] ++
        (if env.encodeOk then [CEvent.msgSuccess] else [CEvent.msgEncodeError]) ++
        [CEvent.streamOff, CEvent.closeDev])
  else
    (0, (warmIter env 0 10).2 ++
      [CEvent.msgEmptyFrame, CEvent.streamOff, CEvent.closeDev])

/-- Predicate selecting dequeue events. -/
def isDequeue : CEvent → Bool
  | CEvent.dequeue _ => true
  | _ => false

/-- Predicate selecting requeue events. -/
def isRequeue : CEvent → Bool
  | CEvent.requeue _ => true
  | _ => false

/-- Predicate selecting conversion events. -/
def isConvert : CEvent → Bool
  | CEvent.convert => true
  | _ => false

/-- Predicate selecting encoder invocations. -/
def isEncode : CEvent → Bool
  | CEvent.encode _ _ _ _ _ => true
  | _ => false

lemma warmIter_all_ok (env : CaptureEnv) :
    ∀ n s, (∀ j, s ≤ j → j < s + n → env.waitOk j = true) →
      warmIter env s n = (true, warmOkTrace env s n) := by
  intro n
  induction n with
  | zero => intro s _; simp [warmIter, warmOkTrace]
  | succ n ih =>
    intro s h
    have hs : env.waitOk s = true := h s le_rfl (by omega)
    rw [warmIter, hs]
    rw [ih (s + 1) (fun j h1 h2 => h j (by omega) (by omega))]
    rw [warmOkTrace, warmOkTrace, List.range'_succ, List.flatMap_cons]
    simp

lemma warmIter_timeout (env : CaptureEnv) :
    ∀ n s k, s ≤ k → k < s + n → (∀ j, s ≤ j → j < k → env.waitOk j = true) →
      env.waitOk k = false →
      warmIter env s n = (false, warmOkTrace env s (k - s) ++ [CEvent.wait false]) := by
  intro n
  induction n with
  | zero => intro s k h1 h2 _ _; omega
  | succ n ih =>
    intro s k hsk hkn hpre hk
    by_cases hse : s = k
    · subst hse
      rw [warmIter, hk]
      simp [warmOkTrace]
    · have hs : env.waitOk s = true := hpre s le_rfl (by omega)
      rw [warmIter, hs]
      rw [ih (s + 1) k (by omega) (by omega) (fun j h1 h2 => hpre j (by omega) h2) hk]
      have h3 : k - s = (k - (s + 1)) + 1 := by omega
      rw [h3, warmOkTrace, warmOkTrace, List.range'_succ, List.flatMap_cons]
      simp

lemma warmOkTrace_shape (env : CaptureEnv) :
    ∀ n s e, e ∈ warmOkTrace env s n →
      e = CEvent.wait true ∨ (∃ b, e = CEvent.dequeue b) ∨ (∃ b, e = CEvent.requeue b) := by
  intro n
  induction n with
  | zero => intro s e he; simp [warmOkTrace] at he
  | succ n ih =>
    intro s e he
    rw [warmOkTrace, List.range'_succ, List.flatMap_cons] at he
    rcases List.mem_append.mp he with h | h
    · rw [warmGroup, List.mem_append] at h
      rcases h with h | h
      · simp only [List.mem_cons, List.not_mem_nil, or_false] at h
        rcases h with rfl | rfl
        · exact Or.inl rfl
        · exact Or.inr (Or.inl ⟨env.dqOk s, rfl⟩)
      · by_cases h9 : s < 9
        · rw [if_pos h9] at h
          simp only [List.mem_cons, List.not_mem_nil, or_false] at h
          exact Or.inr (Or.inr ⟨env.qbufOk s, h⟩)
        · rw [if_neg h9] at h
          simp at h
    · exact ih (s + 1) e h

lemma countP_warmGroup_dq (env : CaptureEnv) (i : ℕ) :
    List.countP isDequeue (warmGroup env i) = 1 := by
  by_cases h : i < 9 <;>
    simp [warmGroup, h, List.countP_cons, List.countP_nil, isDequeue]

lemma countP_warmGroup_rq (env : CaptureEnv) (i : ℕ) :
    List.countP isRequeue (warmGroup env i) = if i < 9 then 1 else 0 := by
  by_cases h : i < 9 <;>
    simp [warmGroup, h, List.countP_cons, List.countP_nil, isRequeue]

lemma countP_warm_dq (env : CaptureEnv) :
    ∀ n s, List.countP isDequeue (warmOkTrace env s n) = n := by
  intro n
  induction n with
  | zero => intro s; simp [warmOkTrace]
  | succ n ih =>
    intro s
    rw [warmOkTrace, List.range'_succ, List.flatMap_cons, List.countP_append]
    rw [countP_warmGroup_dq]
    have := ih (s + 1)
    rw [warmOkTrace] at this
    rw [this]
    omega

lemma countP_warm_rq_lt9 (env : CaptureEnv) :
    ∀ n s, (∀ j, s ≤ j → j < s + n → j < 9) →
      List.countP isRequeue (warmOkTrace env s n) = n := by
  intro n
  induction n with
  | zero => intro s _; simp [warmOkTrace]
  | succ n ih =>
    intro s h
    rw [warmOkTrace, List.range'_succ, List.flatMap_cons, List.countP_append]
    rw [countP_warmGroup_rq, if_pos (h s le_rfl (by omega))]
    have := ih (s + 1) (fun j h1 h2 => h j (by omega) (by omega))
    rw [warmOkTrace] at this
    rw [this]
    omega

lemma warmOkTrace_split (env : CaptureEnv) (s m n : ℕ) :
    warmOkTrace env s (n + m) = warmOkTrace env s m ++ warmOkTrace env (s + m) n := by
  rw [warmOkTrace, warmOkTrace, warmOkTrace, ← List.flatMap_append]
  rw [show s + m = s + 1 * m by ring, List.range'_append]

lemma countP_warm_rq_10 (env : CaptureEnv) :
    List.countP isRequeue (warmOkTrace env 0 10) = 9 := by
  rw [show (10 : ℕ) = 1 + 9 from rfl, warmOkTrace_split, List.countP_append]
  rw [countP_warm_rq_lt9 env 9 0 (fun j _ h2 => by omega)]
  rw [warmOkTrace, List.range'_succ]
  simp [List.range', countP_warmGroup_rq]

lemma countP_warm_convert (env : CaptureEnv) (n s : ℕ) :
    List.countP isConvert (warmOkTrace env s n) = 0 := by
  rw [List.countP_eq_zero]
  intro e he
  rcases warmOkTrace_shape env n s e he with rfl | ⟨b, rfl⟩ | ⟨b, rfl⟩ <;> simp [isConvert]

lemma countP_warm_encode (env : CaptureEnv) (n s : ℕ) :
    List.countP isEncode (warmOkTrace env s n) = 0 := by
  rw [List.countP_eq_zero]
  intro e he
  rcases warmOkTrace_shape env n s e he with rfl | ⟨b, rfl⟩ | ⟨b, rfl⟩ <;> simp [isEncode]

lemma streamOff_not_mem_warm (env : CaptureEnv) (n s : ℕ) :
    CEvent.streamOff ∉ warmOkTrace env s n := by
  intro h
  rcases warmOkTrace_shape env n s _ h with h1 | ⟨b, h1⟩ | ⟨b, h1⟩ <;> exact CEvent.noConfusion h1

lemma closeDev_not_mem_warm (env : CaptureEnv) (n s : ℕ) :
    CEvent.closeDev ∉ warmOkTrace env s n := by
  intro h
  rcases warmOkTrace_shape env n s _ h with h1 | ⟨b, h1⟩ | ⟨b, h1⟩ <;> exact CEvent.noConfusion h1

/-- C4: in a successful run (every select reports a frame in time, the device
reports a nonempty frame, malloc and the JPEG write succeed) the program
performs exactly 10 dequeue operations and exactly 9 requeue operations, the
single conversion happens after the whole warm-up (so only the 10th dequeued
frame is converted), and the encoder is invoked exactly once, with width 320,
height 240, 3 channels and quality 90; the run exits with code 0. -/
theorem capture_c4 (env : CaptureEnv)
    (hw : ∀ j, j < 10 → env.waitOk j = true)
    (hb : 0 < env.bytesused) (hm : env.mallocOk = true) (he : env.encodeOk = true) :
    captureRun env = (0, warmOkTrace env 0 10 ++
      [CEvent.convert, CEvent.encode 320 240 3 90 true, CEvent.msgSuccess,
       CEvent.streamOff, CEvent.closeDev]) ∧
    List.countP isDequeue (captureRun env).2 = 10 ∧
    List.countP isRequeue (captureRun env).2 = 9 ∧
    List.countP isConvert (captureRun env).2 = 1 ∧
    List.countP isEncode (captureRun env).2 = 1 ∧
    List.countP isConvert (warmOkTrace env 0 10) = 0 ∧
    List.countP isDequeue (warmOkTrace env 0 10) = 10 := by
  have hwi := warmIter_all_ok env 10 0 (fun j _ h2 => hw j (by omega))
  have hrun : captureRun env = (0, warmOkTrace env 0 10 ++
      [CEvent.convert, CEvent.encode 320 240 3 90 true, CEvent.msgSuccess,
       CEvent.streamOff, CEvent.closeDev]) := by
    rw [captureRun, hwi]
    simp [hb, hm, he, WIDTH, HEIGHT, QUALITY]
  refine ⟨hrun, ?_, ?_, ?_, ?_, ?_, ?_⟩
  · rw [hrun]
    simp only [List.countP_append, countP_warm_dq]
    decide
  · rw [hrun]
    simp only [List.countP_append, countP_warm_rq_10]
    decide
  · rw [hrun]
    simp only [List.countP_append, countP_warm_convert]
    decide
  · rw [hrun]
    simp only [List.countP_append, countP_warm_encode]
    decide
  · exact countP_warm_convert env 10 0
  · exact countP_warm_dq env 10 0

/-- Environment of an entirely successful capture run: every wait, DQBUF and
QBUF succeeds, the device reports 153600 = 320*240*2 bytes used, and malloc
and the JPEG write succeed. -/
def envAllOk : CaptureEnv :=
  ⟨fun _ => true, fun _ => true, fun _ => true, 153600, true, true⟩

/-- Witness for C4: the successful-run theorem applied to a concrete
environment. -/
theorem capture_c4_witness :
    captureRun envAllOk = (0, warmOkTrace envAllOk 0 10 ++
      [CEvent.convert, CEvent.encode 320 240 3 90 true, CEvent.msgSuccess,
       CEvent.streamOff, CEvent.closeDev]) ∧
    List.countP isDequeue (captureRun envAllOk).2 = 10 ∧
    List.countP isRequeue (captureRun envAllOk).2 = 9 ∧
    List.countP isConvert (captureRun envAllOk).2 = 1 ∧
    List.countP isEncode (captureRun envAllOk).2 = 1 ∧
    List.countP isConvert (warmOkTrace envAllOk 0 10) = 0 ∧
    List.countP isDequeue (warmOkTrace envAllOk 0 10) = 10 :=
  capture_c4 envAllOk (fun _ _ => rfl) (by decide) rfl rfl

/-- C5: if the waits numbered 0 to k-1 succeed and wait k exceeds its
2-second timeout (k < 10, so for example k = 2, the 3rd wait of the warm-up
loop), the run aborts with exit code 1, the failing wait is the last recorded
interaction (zero further queue or dequeue operations), exactly k dequeues
and k requeues happened before it, and the encoder is never invoked. -/
theorem capture_c5 (env : CaptureEnv) (k : ℕ) (hk : k < 10)
    (hpre : ∀ j, j < k → env.waitOk j = true) (hfail : env.waitOk k = false) :
    (captureRun env).1 = 1 ∧
    (captureRun env).2 = warmOkTrace env 0 k ++ [CEvent.wait false] ∧
    List.countP isDequeue (captureRun env).2 = k ∧
    List.countP isRequeue (captureRun env).2 = k ∧
    List.countP isEncode (captureRun env).2 = 0 ∧
    List.countP isConvert (captureRun env).2 = 0 := by
  have hwi := warmIter_timeout env 10 0 k (by omega) (by omega)
    (fun j _ h2 => hpre j h2) hfail
  rw [Nat.sub_zero] at hwi
  have hrun : captureRun env = (1, warmOkTrace env 0 k ++ [CEvent.wait false]) := by
    rw [captureRun, hwi]
    simp
  refine ⟨by rw [hrun], by rw [hrun], ?_, ?_, ?_, ?_⟩
  · rw [hrun]
    simp only [List.countP_append, countP_warm_dq]
    have h0 : List.countP isDequeue [CEvent.wait false] = 0 := by decide
    omega
  · rw [hrun]
    simp only [List.countP_append, countP_warm_rq_lt9 env k 0 (fun j _ h2 => by omega)]
    have h0 : List.countP isRequeue [CEvent.wait false] = 0 := by decide
    omega
  · rw [hrun]
    simp only [List.countP_append, countP_warm_encode]
    have h0 : List.countP isEncode [CEvent.wait false] = 0 := by decide
    omega
  · rw [hrun]
    simp only [List.countP_append, countP_warm_convert]
    have h0 : List.countP isConvert [CEvent.wait false] = 0 := by decide
    omega

/-- Environment in which the 3rd wait (index 2) times out and everything else
would have succeeded. -/
def envT3 : CaptureEnv :=
  ⟨fun j => decide (j < 2), fun _ => true, fun _ => true, 153600, true, true⟩

/-- Witness for C5: the timeout theorem applied to the concrete environment
in which the 3rd wait of the warm-up loop times out. -/
theorem capture_c5_witness :
    (captureRun envT3).1 = 1 ∧
    (captureRun envT3).2 = warmOkTrace envT3 0 2 ++ [CEvent.wait false] ∧
    List.countP isDequeue (captureRun envT3).2 = 2 ∧
    List.countP isRequeue (captureRun envT3).2 = 2 ∧
    List.countP isEncode (captureRun envT3).2 = 0 ∧
    List.countP isConvert (captureRun envT3).2 = 0 :=
  capture_c5 envT3 2 (by decide) (by decide) (by decide)

/-- Environment in which every wait succeeds but every DQBUF and QBUF ioctl
of the warm-up loop fails. -/
def envDqFail : CaptureEnv :=
  ⟨fun _ => true, fun _ => false, fun _ => false, 153600, true, true⟩

/-- C6 counterexample: the claim states that every failure during the dequeue
loop (Timeout, DequeueFailed, QueueFailed) is fatal and that the program
still attempts stream-off and close before exiting on such a failure.  Both
parts fail on the code.  First, in the environment in which the 3rd wait
times out, the run exits with code 1 but its interaction trace contains
neither a STREAMOFF nor a close: the code returns 1 directly from the loop.
Second, in the environment in which every DQBUF and QBUF of the loop fails,
the run is not aborted at all: the code never checks those ioctl results, so
the run still exits with code 0 and invokes the encoder. -/
theorem capture_c6_counterexample :
    ((captureRun envT3).1 = 1 ∧
      CEvent.streamOff ∉ (captureRun envT3).2 ∧
      CEvent.closeDev ∉ (captureRun envT3).2) ∧
    ((captureRun envDqFail).1 = 0 ∧
      List.countP isEncode (captureRun envDqFail).2 = 1) := by decide

/-- C6 (amended): a timeout in the dequeue loop is fatal and aborts the run
with exit code 1, but the program exits immediately without attempting
stream-off or close; failures of the DQBUF and QBUF calls inside the loop are
not checked at all and never abort the run: whenever every wait succeeds, the
frame is nonempty and malloc succeeds, the run exits with code 0, reaches
stream-off and close, and invokes the encoder exactly once, regardless of the
dequeue and requeue results. -/
theorem capture_c6_amended :
    (∀ (env : CaptureEnv) (k : ℕ), k < 10 → (∀ j, j < k → env.waitOk j = true) →
      env.waitOk k = false →
      (captureRun env).1 = 1 ∧
      CEvent.streamOff ∉ (captureRun env).2 ∧
      CEvent.closeDev ∉ (captureRun env).2) ∧
    (∀ env : CaptureEnv, (∀ j, j < 10 → env.waitOk j = true) → 0 < env.bytesused →
      env.mallocOk = true →
      (captureRun env).1 = 0 ∧
      CEvent.streamOff ∈ (captureRun env).2 ∧
      CEvent.closeDev ∈ (captureRun env).2 ∧
      List.countP isEncode (captureRun env).2 = 1) := by
  constructor
  · intro env k hk hpre hfail
    have hwi := warmIter_timeout env 10 0 k (by omega) (by omega)
      (fun j _ h2 => hpre j h2) hfail
    rw [Nat.sub_zero] at hwi
    have hrun : captureRun env = (1, warmOkTrace env 0 k ++ [CEvent.wait false]) := by
      rw [captureRun, hwi]
      simp
    refine ⟨by rw [hrun], ?_, ?_⟩
    · rw [hrun]
      intro hmem
      rcases List.mem_append.mp hmem with h | h
      · exact streamOff_not_mem_warm env k 0 h
      · simp at h
    · rw [hrun]
      intro hmem
      rcases List.mem_append.mp hmem with h | h
      · exact closeDev_not_mem_warm env k 0 h
      · simp at h
  · intro env hw hb hm
    have hwi := warmIter_all_ok env 10 0 (fun j _ h2 => hw j (by omega))
    cases he : env.encodeOk
    · have hrun : captureRun env = (0, warmOkTrace env 0 10 ++
          [CEvent.convert, CEvent.encode 320 240 3 90 false, CEvent.msgEncodeError,
           CEvent.streamOff, CEvent.closeDev]) := by
        rw [captureRun, hwi]
        simp [hb, hm, he, WIDTH, HEIGHT, QUALITY]
      refine ⟨by rw [hrun], ?_, ?_, ?_⟩
      · rw [hrun]; simp
      · rw [hrun]; simp
      · rw [hrun]
        simp only [List.countP_append, countP_warm_encode]
        decide
    · have hrun : captureRun env = (0, warmOkTrace env 0 10 ++
          [CEvent.convert, CEvent.encode 320 240 3 90 true, CEvent.msgSuccess,
           CEvent.streamOff, CEvent.closeDev]) := by
        rw [captureRun, hwi]
        simp [hb, hm, he, WIDTH, HEIGHT, QUALITY]
      refine ⟨by rw [hrun], ?_, ?_, ?_⟩
      · rw [hrun]; simp
      · rw [hrun]; simp
      · rw [hrun]
        simp only [List.countP_append, countP_warm_encode]
        decide

/-- Witness for C6 (amended): both halves applied to concrete environments,
the timeout half at the environment in which the 3rd wait fails and the
ignored-failure half at the environment in which every loop ioctl fails. -/
theorem capture_c6_amended_witness :
    ((captureRun envT3).1 = 1 ∧
      CEvent.streamOff ∉ (captureRun envT3).2 ∧
      CEvent.closeDev ∉ (captureRun envT3).2) ∧
    ((captureRun envDqFail).1 = 0 ∧
      CEvent.streamOff ∈ (captureRun envDqFail).2 ∧
      CEvent.closeDev ∈ (captureRun envDqFail).2 ∧
      List.countP isEncode (captureRun envDqFail).2 = 1) :=
  ⟨capture_c6_amended.1 envT3 2 (by decide) (by decide) (by decide),
   capture_c6_amended.2 envDqFail (fun _ _ => rfl) (by decide) rfl⟩

/-- C8: once streaming has started and no wait times out, the program exits
with status 0 even when the dequeued frame reports zero bytes used or when
the JPEG write fails; the corresponding error message is printed, the exit
code is unchanged, and the teardown events STREAMOFF and close still occur
at the end of the trace. -/
theorem capture_c8 :
    (∀ env : CaptureEnv, (∀ j, j < 10 → env.waitOk j = true) → env.bytesused = 0 →
      captureRun env = (0, warmOkTrace env 0 10 ++
        [CEvent.msgEmptyFrame, CEvent.streamOff, CEvent.closeDev])) ∧
    (∀ env : CaptureEnv, (∀ j, j < 10 → env.waitOk j = true) → 0 < env.bytesused →
      env.mallocOk = true → env.encodeOk = false →
      captureRun env = (0, warmOkTrace env 0 10 ++
        [CEvent.convert, CEvent.encode 320 240 3 90 false, CEvent.msgEncodeError,
         CEvent.streamOff, CEvent.closeDev])) := by
  constructor
  · intro env hw hb
    have hwi := warmIter_all_ok env 10 0 (fun j _ h2 => hw j (by omega))
    rw [captureRun, hwi]
    simp [hb]
  · intro env hw hb hm he
    have hwi := warmIter_all_ok env 10 0 (fun j _ h2 => hw j (by omega))
    rw [captureRun, hwi]
    simp [hb, hm, he, WIDTH, HEIGHT, QUALITY]

/-- Environment in which every wait succeeds but the device reports a frame
with zero bytes used. -/
def envEmpty : CaptureEnv :=
  ⟨fun _ => true, fun _ => true, fun _ => true, 0, true, true⟩

/-- Environment in which everything succeeds except the JPEG write. -/
def envEncFail : CaptureEnv :=
  ⟨fun _ => true, fun _ => true, fun _ => true, 153600, true, false⟩

/-- Witness for C8: both halves applied to concrete environments, one with an
empty frame and one with a failing JPEG write. -/
theorem capture_c8_witness :
    captureRun envEmpty = (0, warmOkTrace envEmpty 0 10 ++
      [CEvent.msgEmptyFrame, CEvent.streamOff, CEvent.closeDev]) ∧
    captureRun envEncFail = (0, warmOkTrace envEncFail 0 10 ++
      [CEvent.convert, CEvent.encode 320 240 3 90 false, CEvent.msgEncodeError,
       CEvent.streamOff, CEvent.closeDev]) :=
  ⟨capture_c8.1 envEmpty (fun _ _ => rfl) rfl,
   capture_c8.2 envEncFail (fun _ _ => rfl) (by decide) rfl rfl⟩

/-- Observable interactions of the serial/PWM program (serial_pwm.c): sysfs
PWM writes with their target file and value, console echo of a printable byte
or of the hex escape for a non-printable byte, and the command messages
printed by pwm_control. -/
inductive SEvent where
  | pwmWrite (file val : String)
  | echoChar (c : ℕ)
  | echoHex (c : ℕ)
  | msgStarted
  | msgStopped
deriving DecidableEq, Repr

/-- Environment for the sysfs writes of serial_pwm.c: whether opening and
writing the given sysfs file succeeds.  An export refused with EBUSY is
treated as success by the code, so writeOk of the export file stands for the
combined outcome the code acts on. -/
structure PwmEnv where
  writeOk : String → Bool

/-- Model of pwm_write_file (serial_pwm.c lines 26-55): the returned status
(0 on success, -1 on failure) and the attempted write as an event. -/
def pwm_write_file (env : PwmEnv) (filename value : String) : Int × List SEvent :=
  (if env.writeOk filename then 0 else -1, [SEvent.pwmWrite filename value])

/-- Model of pwm_init (serial_pwm.c lines 58-86): export the channel (result
ignored), set period (return -1 on failure), set duty cycle (return -1 on
failure), then write enable=0 (result ignored) and return 0. -/
def pwm_init (env : PwmEnv) : Int × List SEvent :=
  if (pwm_write_file env "period" "1000000").1 ≠ 0 then
    (-1, (pwm_write_file env "export" "0").2 ++ (pwm_write_file env "period" "1000000").2)
  else if (pwm_write_file env "duty_cycle" "500000").1 ≠ 0 then
    (-1, (pwm_write_file env "export" "0").2 ++ (pwm_write_file env "period" "1000000").2 ++
      (pwm_write_file env "duty_cycle" "500000").2)
  else
    (0, (pwm_write_file env "export" "0").2 ++ (pwm_write_file env "period" "1000000").2 ++
      (pwm_write_file env "duty_cycle" "500000").2 ++ (pwm_write_file env "enable" "0").2)

/-- Model of pwm_control (serial_pwm.c lines 89-97): print the command
message, then write enable=1 or enable=0 (result ignored). -/
def pwm_control (env : PwmEnv) (state : ℕ) : List SEvent :=
  if state ≠ 0 then SEvent.msgStarted :: (pwm_write_file env "enable" "1").2
  else SEvent.msgStopped :: (pwm_write_file env "enable" "0").2

/-- Model of the C isprint predicate in the C locale: bytes 0x20 to 0x7E. -/
def isprint (c : ℕ) : Bool := 32 ≤ c && c ≤ 126

/-- Processing of one received byte by the main loop of serial_pwm.c (lines
194-214): byte 65 or 97 (letters A, a) starts the PWM, byte 66 or 98
(letters B, b) stops it, every other byte triggers no command; afterwards the
byte is always echoed, verbatim when printable or one of newline, carriage
return, tab (bytes 10, 13, 9), as a hex escape otherwise. -/
def processByte (env : PwmEnv) (c : ℕ) : List SEvent :=
  (if c = 65 ∨ c = 97 then pwm_control env 1
   else if c = 66 ∨ c = 98 then pwm_control env 0
   else []) ++
  (if isprint c || c == 10 || c == 13 || c == 9 then [SEvent.echoChar c]
   else [SEvent.echoHex c])

/-- The serial read loop (serial_pwm.c lines 183-215) over the whole stream
of received bytes: chunking by read calls does not change the per-byte
processing order, so the loop is the concatenation of the per-byte traces. -/
def serialLoop (env : PwmEnv) (input : List ℕ) : List SEvent :=
  input.flatMap (processByte env)

/-- Model of main (serial_pwm.c lines 146-223) from pwm_init on: the program
always continues into the serial loop, with only a warning when pwm_init
failed. -/
def serialRun (env : PwmEnv) (input : List ℕ) : List SEvent :=
  (pwm_init env).2 ++ serialLoop env input

/-- The enable-file writes in a trace, in order, as their written values. -/
def enablePart (e : SEvent) : Option String :=
  match e with
  | SEvent.pwmWrite f v => if f = "enable" then some v else none
  | _ => none

/-- All values written to the PWM enable file in a trace, in order. -/
def enableWrites (l : List SEvent) : List String := l.filterMap enablePart

/-- Predicate selecting console echo events. -/
def isEcho (e : SEvent) : Bool :=
  match e with
  | SEvent.echoChar _ => true
  | SEvent.echoHex _ => true
  | _ => false

/-- The echo events of a trace, in order. -/
def echoEvents (l : List SEvent) : List SEvent := l.filter isEcho

/-- The echo event produced for one received byte. -/
def echoOf (c : ℕ) : SEvent :=
  if isprint c || c == 10 || c == 13 || c == 9 then SEvent.echoChar c else SEvent.echoHex c

/-- Bytes that start the motor: letters A and a. -/
def isStartByte (c : ℕ) : Bool := c == 65 || c == 97

lemma enableWrites_append (a b : List SEvent) :
    enableWrites (a ++ b) = enableWrites a ++ enableWrites b := by
  rw [enableWrites, enableWrites, enableWrites, List.filterMap_append]

lemma enableWrites_processByte (env : PwmEnv) (c : ℕ) :
    enableWrites (processByte env c) =
      if c = 65 ∨ c = 97 then ["1"] else if c = 66 ∨ c = 98 then ["0"] else [] := by
  rw [processByte, enableWrites_append]
  have hecho : enableWrites (if isprint c || c == 10 || c == 13 || c == 9 then
      [SEvent.echoChar c] else [SEvent.echoHex c]) = [] := by
    split <;> rfl
  rw [hecho, List.append_nil]
  by_cases h1 : c = 65 ∨ c = 97
  · rw [if_pos h1, if_pos h1]
    rfl
  · rw [if_neg h1, if_neg h1]
    by_cases h2 : c = 66 ∨ c = 98
    · rw [if_pos h2, if_pos h2]
      rfl
    · rw [if_neg h2, if_neg h2]
      rfl

lemma echoEvents_append (a b : List SEvent) :
    echoEvents (a ++ b) = echoEvents a ++ echoEvents b := by
  rw [echoEvents, echoEvents, echoEvents, List.filter_append]

lemma echoEvents_pwm_control (env : PwmEnv) (s : ℕ) :
    echoEvents (pwm_control env s) = [] := by
  rw [pwm_control]
  split <;> rfl

lemma echoEvents_processByte (env : PwmEnv) (c : ℕ) :
    echoEvents (processByte env c) = [echoOf c] := by
  rw [processByte, echoEvents_append]
  have hcmd : echoEvents (if c = 65 ∨ c = 97 then pwm_control env 1
      else if c = 66 ∨ c = 98 then pwm_control env 0 else []) = [] := by
    split
    · exact echoEvents_pwm_control env 1
    · split
      · exact echoEvents_pwm_control env 0
      · rfl
  rw [hcmd, List.nil_append, echoOf]
  split <;> rfl

lemma count1_processByte (env : PwmEnv) (c : ℕ) :
    (enableWrites (processByte env c)).count "1" = if isStartByte c then 1 else 0 := by
  rw [enableWrites_processByte]
  by_cases h1 : c = 65 ∨ c = 97
  · rcases h1 with rfl | rfl <;> decide
  · rw [if_neg h1]
    have hs : isStartByte c = false := by
      rw [isStartByte]
      simp only [Bool.or_eq_false_iff, beq_eq_false_iff_ne, ne_eq]
      exact ⟨fun h => h1 (Or.inl h), fun h => h1 (Or.inr h)⟩
    rw [hs]
    by_cases h2 : c = 66 ∨ c = 98
    · rw [if_pos h2]
      rfl
    · rw [if_neg h2]
      rfl

lemma count1_serialLoop (env : PwmEnv) :
    ∀ input : List ℕ,
      (enableWrites (serialLoop env input)).count "1" = input.countP isStartByte := by
  intro input
  induction input with
  | nil => rfl
  | cons c t ih =>
    rw [serialLoop, List.flatMap_cons, enableWrites_append, List.count_append]
    rw [count1_processByte, List.countP_cons]
    rw [serialLoop] at ih
    rw [ih]
    by_cases hc : isStartByte c
    · simp [hc]
      omega
    · simp [hc]

lemma count1_pwm_init (env : PwmEnv) :
    (enableWrites (pwm_init env).2).count "1" = 0 := by
  rw [pwm_init]
  split
  · rfl
  · split
    · rfl
    · rfl

/-- C7: for every input byte stream, bytes 65 and 97 (letters A, a) make the
motor receive enable(1), bytes 66 and 98 (letters B, b) make it receive
enable(0), and every other byte produces no enable write at all; for the
stream x A 1 B z (bytes 120, 65, 49, 66, 122) the motor receives exactly the
writes enable=1 then enable=0, in that order, and nothing else. -/
theorem serial_c7 :
    (∀ env : PwmEnv,
      enableWrites (serialLoop env [120, 65, 49, 66, 122]) = ["1", "0"]) ∧
    (∀ (env : PwmEnv) (c : ℕ), ¬(c = 65 ∨ c = 97) → ¬(c = 66 ∨ c = 98) →
      enableWrites (processByte env c) = []) ∧
    (∀ env : PwmEnv, enableWrites (processByte env 65) = ["1"]) ∧
    (∀ env : PwmEnv, enableWrites (processByte env 97) = ["1"]) ∧
    (∀ env : PwmEnv, enableWrites (processByte env 66) = ["0"]) ∧
    (∀ env : PwmEnv, enableWrites (processByte env 98) = ["0"]) := by
  refine ⟨fun env => ?_, fun env c h1 h2 => ?_, fun env => ?_, fun env => ?_,
    fun env => ?_, fun env => ?_⟩
  · rfl
  · rw [enableWrites_processByte, if_neg h1, if_neg h2]
  · rfl
  · rfl
  · rfl
  · rfl

/-- Environment in which every sysfs write succeeds. -/
def pwmAllOk : PwmEnv := ⟨fun _ => true⟩

/-- Witness for C7: the no-effect clause applied to the concrete byte 120
(letter x), whose hypotheses are discharged by computation. -/
theorem serial_c7_witness : enableWrites (processByte pwmAllOk 120) = [] :=
  serial_c7.2.1 pwmAllOk 120 (by decide) (by decide)

/-- C9: no command byte is consumed silently.  The echo events of the serial
loop are exactly one echo per received byte, in order: the byte itself when
printable or one of newline, carriage return, tab; its hex escape otherwise.
In particular the command bytes 65, 97, 66, 98 each produce both their
command action and their echo in the same per-byte trace. -/
theorem serial_c9 :
    (∀ (env : PwmEnv) (input : List ℕ),
      echoEvents (serialLoop env input) = input.map echoOf) ∧
    (∀ env : PwmEnv, processByte env 65 =
      [SEvent.msgStarted, SEvent.pwmWrite "enable" "1", SEvent.echoChar 65]) ∧
    (∀ env : PwmEnv, processByte env 97 =
      [SEvent.msgStarted, SEvent.pwmWrite "enable" "1", SEvent.echoChar 97]) ∧
    (∀ env : PwmEnv, processByte env 66 =
      [SEvent.msgStopped, SEvent.pwmWrite "enable" "0", SEvent.echoChar 66]) ∧
    (∀ env : PwmEnv, processByte env 98 =
      [SEvent.msgStopped, SEvent.pwmWrite "enable" "0", SEvent.echoChar 98]) := by
  refine ⟨fun env input => ?_, fun env => rfl, fun env => rfl, fun env => rfl,
    fun env => rfl⟩
  induction input with
  | nil => rfl
  | cons c t ih =>
    rw [serialLoop, List.flatMap_cons, echoEvents_append, List.map_cons]
    rw [echoEvents_processByte]
    rw [serialLoop] at ih
    rw [ih]
    rfl

/-- Witness for C9: the echo-per-byte equation applied to a concrete
environment and the concrete input consisting of the single byte 65. -/
theorem serial_c9_witness :
    echoEvents (serialLoop pwmAllOk [65]) = [65].map echoOf :=
  serial_c9.1 pwmAllOk [65]

/-- C10: whenever pwm_init succeeds, its trace is export, then period
1000000, then duty_cycle 500000, and writing enable=0 is its final step, so
the motor is disabled before any serial byte is processed; across the whole
run, the number of enable=1 writes equals the number of received bytes 65 or
97 (letters A, a), so the PWM output can only become enabled by such a
command. -/
theorem serial_c10 :
    (∀ env : PwmEnv, (pwm_init env).1 = 0 →
      (pwm_init env).2 =
        [SEvent.pwmWrite "export" "0", SEvent.pwmWrite "period" "1000000",
         SEvent.pwmWrite "duty_cycle" "500000", SEvent.pwmWrite "enable" "0"] ∧
      enableWrites (pwm_init env).2 = ["0"]) ∧
    (∀ (env : PwmEnv) (input : List ℕ),
      serialRun env input = (pwm_init env).2 ++ serialLoop env input) ∧
    (∀ (env : PwmEnv) (input : List ℕ),
      (enableWrites (serialRun env input)).count "1" = input.countP isStartByte) := by
  refine ⟨fun env h => ?_, fun env input => rfl, fun env input => ?_⟩
  · by_cases hp : env.writeOk "period"
    · by_cases hd : env.writeOk "duty_cycle"
      · have h2 : pwm_init env =
            (0, [SEvent.pwmWrite "export" "0", SEvent.pwmWrite "period" "1000000",
             SEvent.pwmWrite "duty_cycle" "500000", SEvent.pwmWrite "enable" "0"]) := by
          rw [pwm_init]
          simp [pwm_write_file, hp, hd]
        rw [h2]
        exact ⟨rfl, rfl⟩
      · rw [pwm_init] at h
        simp [pwm_write_file, hp, hd] at h
    · rw [pwm_init] at h
      simp [pwm_write_file, hp] at h
  · rw [serialRun, enableWrites_append, List.count_append, count1_pwm_init,
      count1_serialLoop, Nat.zero_add]

/-- Witness for C10: the init clause applied to the all-successful
environment, whose success hypothesis is discharged by computation, together
with the whole-run enable count on the concrete input with one start byte. -/
theorem serial_c10_witness :
    ((pwm_init pwmAllOk).2 =
      [SEvent.pwmWrite "export" "0", SEvent.pwmWrite "period" "1000000",
       SEvent.pwmWrite "duty_cycle" "500000", SEvent.pwmWrite "enable" "0"] ∧
      enableWrites (pwm_init pwmAllOk).2 = ["0"]) ∧
    (enableWrites (serialRun pwmAllOk [120, 65, 49])).count "1" =
      ([120, 65, 49] : List ℕ).countP isStartByte :=
  ⟨serial_c10.1 pwmAllOk (by decide), serial_c10.2.2 pwmAllOk [120, 65, 49]⟩
